import Mathlib

/-!
Formal model of the DCT NFT create built-in function (package builtInFunctions,
file dctNFTCreate) and of its per-account nonce ledger.  Byte strings are lists
of naturals; Go fixed-width arithmetic is modelled by explicit reduction modulo
the word size.  External collaborators (account adapter, token storage handler,
liquidity tracker, role authority, serializer) are modelled from the spec as
total functions over an explicit state, as their implementations live outside
this repository.
-/

/-- Byte strings are modelled as lists of naturals, one entry per byte. -/
abbrev Bytes := List Nat

/-- Reduction modulo 2 to the 64, the semantics of Go uint64 arithmetic. -/
def u64 (n : Nat) : Nat := n % 2 ^ 64

/-- Reduction modulo 2 to the 32, the semantics of a Go uint32 conversion. -/
def u32 (n : Nat) : Nat := n % 2 ^ 32

/-- Big-endian decoding of a byte string, the semantics of big.Int SetBytes. -/
def beDecode (bs : Bytes) : Nat := bs.foldl (fun acc b => acc * 256 + b) 0

/-- Fuel-indexed auxiliary recursion for minimal big-endian encoding. -/
def beEncodeAux : Nat → Nat → Bytes
  | 0, _ => []
  | _ + 1, 0 => []
  | fuel + 1, n + 1 => beEncodeAux fuel ((n + 1) / 256) ++ [(n + 1) % 256]

/-- Minimal big-endian encoding of a natural, the semantics of big.Int Bytes;
the encoding of 0 is the empty byte string. -/
def beEncode (n : Nat) : Bytes := beEncodeAux n n

/-- Modelled from the spec: the reserved key prefix of the nonce ledger
(ProtectedKeyPrefix plus DCTNFTLatestNonceIdentifier; these constants are
defined outside src/). -/
def noncePrefixBytes : Bytes := [80, 110, 111, 110, 99, 101]

/-- Modelled from the spec: the storage key prefix for token data
(baseDCTKeyPrefix; the constant is defined outside src/). -/
def dctKeyPrefixBytes : Bytes := [80, 100, 99, 116]

/-- Modelled from the spec: the maximum royalty value in basis points
(core.MaxRoyalty; the constant is defined outside src/). -/
def maxRoyalty : Nat := 10000

/-- Modelled from the spec: the configured maximum byte length of the quantity
argument (maxLenForAddNFTQuantity; the constant is defined outside src/). -/
def maxLenForAddNFTQuantity : Nat := 32

/-- Modelled from the spec: numeric tag of the non-fungible token type
(core.NonFungible; the constant is defined outside src/). -/
def nonFungibleType : Nat := 1

/-- Modelled from the spec: role name authorizing creation
(core.DCTRoleNFTCreate; the constant is defined outside src/). -/
def roleNFTCreate : Bytes := [67, 114, 101, 97, 116, 101]

/-- Modelled from the spec: role name authorizing quantity addition
(core.DCTRoleNFTAddQuantity; the constant is defined outside src/). -/
def roleNFTAddQuantity : Bytes := [65, 100, 100, 81, 116, 121]

/-- Modelled from the spec: the operation name recorded in the emitted event
(core.BuiltInFunctionDCTNFTCreate; the constant is defined outside src/). -/
def builtInFunctionDCTNFTCreate : Bytes := [68, 67, 84, 78, 70, 84, 67, 114, 101, 97, 116, 101]

/-- Per-account key-value lookup (AccountDataHandler RetrieveValue; absence
yields none, which the nonce ledger reads as 0). -/
def storeGet : List (Bytes × Bytes) → Bytes → Option Bytes
  | [], _ => none
  | kv :: rest, key => if kv.1 = key then some kv.2 else storeGet rest key

/-- Per-account key-value update (AccountDataHandler SaveKeyValue); the newest
binding shadows older ones. -/
def storePut (s : List (Bytes × Bytes)) (key value : Bytes) : List (Bytes × Bytes) :=
  (key, value) :: s

/-- A user account: an address and its key-value data store. -/
structure Account where
  addr : Bytes
  store : List (Bytes × Bytes)
deriving DecidableEq

/-- Call types relevant to this function: a direct call, or execute-on-
destination-by-caller (the Resolved-Target mode); the source only ever
compares the call type against ExecOnDestByCaller. -/
inductive CallType where
  | directCall
  | execOnDestByCaller
deriving DecidableEq

/-- The call record (vmcommon.ContractCallInput fields read by this function). -/
structure ContractCallInput where
  callerAddr : Bytes
  recipientAddr : Bytes
  callType : CallType
  arguments : List Bytes
  gasProvided : Nat
  returnCallAfterError : Bool
deriving DecidableEq

/-- Token metadata (dct.MetaData). -/
structure MetaData where
  nonce : Nat
  name : Bytes
  creator : Bytes
  royalties : Nat
  hash : Bytes
  attributes : Bytes
  uris : List Bytes
deriving DecidableEq

/-- A token unit (dct.DCToken). -/
structure DCToken where
  typ : Nat
  value : Nat
  tokenMetaData : MetaData
deriving DecidableEq

/-- Modelled from the spec: one structured event, recording the operation name,
token identifier, new nonce, quantity, caller address and the optional
serialized unit (addDCTEntryInVMOutput is defined outside src/). -/
structure LogEntry where
  identifier : Bytes
  tokenID : Bytes
  nonce : Nat
  quantity : Nat
  caller : Bytes
  data : Bytes
deriving DecidableEq

/-- Return code of a successful output record (vmcommon.Ok). -/
inductive ReturnCode where
  | ok
deriving DecidableEq

/-- The output record (vmcommon.VMOutput fields written by this function). -/
structure VMOutput where
  returnCode : ReturnCode
  gasRemaining : Nat
  returnData : List Bytes
  logs : List LogEntry
deriving DecidableEq

/-- Modelled from the spec: the externally owned state touched by one call —
the adapter-visible accounts, the units persisted by the token storage handler,
and the liquidity tracker entries. -/
structure VMState where
  accounts : List Account
  units : List (Bytes × Bytes × Nat × DCToken)
  liquidity : List (Bytes × Nat × Nat)
deriving DecidableEq

/-- The handler component (dctNFTCreate): base gas cost, per-byte storage cost,
role authority, the value-length feature flag and the serializer. -/
structure DctNFTCreate where
  funcGasCost : Nat
  storePerByte : Nat
  roles : Bytes → Bytes → Bytes → Bool
  valueLengthCheck : Bool
  marshal : DCToken → Option Bytes

/-- The error taxonomy surfaced by this function. -/
inductive PError where
  | errInvalidRcvAddr
  | errNilUserAccount
  | errNotEnoughGas
  | errInvalidArguments
  | errInvalidAddressLength
  | errActionNotAllowed
  | errAccountNotFound
deriving DecidableEq

/-- A Go-style (output, error) pair: exactly one of the two is meaningful. -/
inductive CallResult where
  | failure (err : PError)
  | success (out : VMOutput)
deriving DecidableEq

/-- Result of one call: the returned value or error, the sender account as the
call leaves it, and the external state as the call leaves it. -/
structure ProcResult where
  res : CallResult
  acnt : Option Account
  st : VMState
deriving DecidableEq

/-- Key of the nonce ledger: the reserved prefix plus the token identifier
(getNonceKey). -/
def getNonceKey (tokenID : Bytes) : Bytes := noncePrefixBytes ++ tokenID

/-- Read the latest nonce for (account, token identifier); absent or empty data
reads as 0, otherwise the stored bytes are decoded big-endian and truncated to
uint64 (getLatestNonce). -/
def getLatestNonce (acnt : Account) (tokenID : Bytes) : Nat :=
  match storeGet acnt.store (getNonceKey tokenID) with
  | none => 0
  | some nonceData => if nonceData = [] then 0 else u64 (beDecode nonceData)

/-- Write a nonce for (account, token identifier), stored as its minimal
big-endian encoding (saveLatestNonce). -/
def saveLatestNonce (acnt : Account) (tokenID : Bytes) (nonce : Nat) : Account :=
  { acnt with store := storePut acnt.store (getNonceKey tokenID) (beEncode nonce) }

/-- Key of a stored token unit: token key plus big-endian nonce
(computeDCTNFTTokenKey). -/
def computeDCTNFTTokenKey (dctTokenKey : Bytes) (nonce : Nat) : Bytes :=
  dctTokenKey ++ beEncode nonce

/-- Modelled from the spec: account adapter load (LoadAccount; the adapter is
implemented outside src/); a missing account is an error in the caller. -/
def loadAccount : List Account → Bytes → Option Account
  | [], _ => none
  | a :: rest, address => if a.addr = address then some a else loadAccount rest address

/-- Modelled from the spec: account adapter save (SaveAccount; the adapter is
implemented outside src/); the newest version shadows older ones. -/
def saveAccount (st : VMState) (a : Account) : VMState :=
  { st with accounts := a :: st.accounts }

/-- Modelled from the spec: token storage handler saveUnit — persists the unit
under the owning account (SaveDCTNFTToken is implemented outside src/; the
isCreate and returnOnError flags do not affect the stored record here). -/
def saveDCTNFTToken (st : VMState) (ownerAddr dctTokenKey : Bytes) (nonce : Nat)
    (token : DCToken) : VMState :=
  { st with units := (ownerAddr, dctTokenKey, nonce, token) :: st.units }

/-- Modelled from the spec: liquidity tracker addToGlobalSupply
(AddToLiquiditySystemAcc is implemented outside src/). -/
def addToLiquiditySystemAcc (st : VMState) (dctTokenKey : Bytes) (nonce quantity : Nat) :
    VMState :=
  { st with liquidity := (dctTokenKey, nonce, quantity) :: st.liquidity }

/-- Modelled from the spec: shared basic shape check; the spec lists no
conditions at this point beyond the ones checked explicitly in
checkDCTNFTCreateBurnAddInput below (checkBasicDCTArguments is implemented
outside src/). -/
def checkBasicDCTArguments (_vmInput : ContractCallInput) : Option PError := none

/-- Shared input check (checkDCTNFTCreateBurnAddInput): basic arguments, caller
equals recipient, acting account present unless in Resolved-Target mode, and
gas provided at least the base cost. -/
def checkDCTNFTCreateBurnAddInput (account : Option Account) (vmInput : ContractCallInput)
    (funcGasCost : Nat) : Option PError :=
  match checkBasicDCTArguments vmInput with
  | some err => some err
  | none =>
    if vmInput.callerAddr ≠ vmInput.recipientAddr then some PError.errInvalidRcvAddr
    else if account = none ∧ vmInput.callType ≠ CallType.execOnDestByCaller then
      some PError.errNilUserAccount
    else if vmInput.gasProvided < funcGasCost then some PError.errNotEnoughGas
    else none

/-- Modelled from the spec: event emission — append one structured event to the
output record (addDCTEntryInVMOutput is implemented outside src/). -/
def addDCTEntryInVMOutput (out : VMOutput) (identifier tokenID : Bytes) (nonce quantity : Nat)
    (caller data : Bytes) : VMOutput :=
  { out with
    logs := out.logs ++
      [LogEntry.mk identifier tokenID nonce quantity caller data] }

/-- Argument 0: the token identifier. -/
def tokenIdArg (vmInput : ContractCallInput) : Bytes := vmInput.arguments.getD 0 []

/-- Sum of the byte lengths of all arguments, accumulated in uint64. -/
def totalArgLength (vmInput : ContractCallInput) : Nat :=
  u64 ((vmInput.arguments.map List.length).sum)

/-- Gas to use: total argument length times the per-byte storage cost plus the
base cost, computed in uint64 arithmetic. -/
def gasToUse (e : DctNFTCreate) (vmInput : ContractCallInput) : Nat :=
  u64 (totalArgLength vmInput * e.storePerByte + e.funcGasCost)

/-- Argument 3 decoded big-endian, truncated to uint64 and then to uint32, as
royalties basis points. -/
def royaltiesArg (vmInput : ContractCallInput) : Nat :=
  u32 (u64 (beDecode (vmInput.arguments.getD 3 [])))

/-- Argument 1 decoded big-endian (arbitrary precision) as the quantity. -/
def quantityArg (vmInput : ContractCallInput) : Nat :=
  beDecode (vmInput.arguments.getD 1 [])

/-- The URI list: arguments from index 6 on, excluding the trailing target
address in Resolved-Target mode. -/
def urisOf (vmInput : ContractCallInput) : List Bytes :=
  if vmInput.callType = CallType.execOnDestByCaller then (vmInput.arguments.drop 6).dropLast
  else vmInput.arguments.drop 6

/-- The account the operation acts on: the target account loaded through the
adapter in Resolved-Target mode, the sender account otherwise. -/
def resolveAcct (acntSnd : Option Account) (vmInput : ContractCallInput) (st : VMState) :
    Option Account :=
  if vmInput.callType = CallType.execOnDestByCaller then
    loadAccount st.accounts (vmInput.arguments.getLastD [])
  else acntSnd

/-- The token unit built by a successful call (the dctData literal of the
source), for the given resolved account and URI list. -/
def mkDctData (vmInput : ContractCallInput) (acc : Account) (uris : List Bytes) : DCToken :=
  { typ := nonFungibleType
    value := quantityArg vmInput
    tokenMetaData :=
      { nonce := u64 (getLatestNonce acc (tokenIdArg vmInput) + 1)
        name := vmInput.arguments.getD 2 []
        creator := vmInput.callerAddr
        royalties := royaltiesArg vmInput
        hash := vmInput.arguments.getD 4 []
        attributes := vmInput.arguments.getD 5 []
        uris := uris } }

/-- The mutation-and-output tail of a successful call (source lines from the
nextNonce computation to the return): persist the unit, update liquidity, write
the nonce, save the target account in Resolved-Target mode, assemble the output
record and emit the event. -/
def mkSuccess (e : DctNFTCreate) (acntSnd : Option Account) (vmInput : ContractCallInput)
    (st : VMState) (accountWithRoles : Account) (uris : List Bytes) : ProcResult :=
  let tokenID := tokenIdArg vmInput
  let nextNonce := u64 (getLatestNonce accountWithRoles tokenID + 1)
  let dctTokenKey := dctKeyPrefixBytes ++ tokenID
  let dctData := mkDctData vmInput accountWithRoles uris
  let st1 := saveDCTNFTToken st accountWithRoles.addr dctTokenKey nextNonce dctData
  let st2 := addToLiquiditySystemAcc st1 dctTokenKey nextNonce (quantityArg vmInput)
  let acc2 := saveLatestNonce accountWithRoles tokenID nextNonce
  let acntSnd2 := if vmInput.callType = CallType.execOnDestByCaller then acntSnd else some acc2
  let st3 := if vmInput.callType = CallType.execOnDestByCaller then saveAccount st2 acc2 else st2
  let dctDataBytes := (e.marshal dctData).getD []
  let vmOutput := addDCTEntryInVMOutput
    { returnCode := ReturnCode.ok
      gasRemaining := vmInput.gasProvided - gasToUse e vmInput
      returnData := [beEncode nextNonce]
      logs := [] }
    builtInFunctionDCTNFTCreate tokenID nextNonce (quantityArg vmInput) vmInput.callerAddr
    dctDataBytes
  { res := CallResult.success vmOutput, acnt := acntSnd2, st := st3 }

/-- The validation chain from the creation-role check on (source lines from
CheckAllowedToExecute to the end): role, gas, royalties, quantity and length
checks, then the success tail. -/
def processWithRoles (e : DctNFTCreate) (acntSnd : Option Account) (vmInput : ContractCallInput)
    (st : VMState) (accountWithRoles : Account) (uris : List Bytes) : ProcResult :=
  if e.roles accountWithRoles.addr (tokenIdArg vmInput) roleNFTCreate = false then
    { res := CallResult.failure PError.errActionNotAllowed, acnt := acntSnd, st := st }
  else if vmInput.gasProvided < gasToUse e vmInput then
    { res := CallResult.failure PError.errNotEnoughGas, acnt := acntSnd, st := st }
  else if maxRoyalty < royaltiesArg vmInput then
    { res := CallResult.failure PError.errInvalidArguments, acnt := acntSnd, st := st }
  else if quantityArg vmInput = 0 then
    { res := CallResult.failure PError.errInvalidArguments, acnt := acntSnd, st := st }
  else if 1 < quantityArg vmInput ∧
      e.roles accountWithRoles.addr (tokenIdArg vmInput) roleNFTAddQuantity = false then
    { res := CallResult.failure PError.errActionNotAllowed, acnt := acntSnd, st := st }
  else if e.valueLengthCheck = true ∧
      maxLenForAddNFTQuantity < (vmInput.arguments.getD 1 []).length then
    { res := CallResult.failure PError.errInvalidArguments, acnt := acntSnd, st := st }
  else
    mkSuccess e acntSnd vmInput st accountWithRoles uris

/-- ProcessBuiltinFunction: the full call — shared input check, argument count,
mode resolution, then the validation chain and success tail.  Errors return the
sender account and the state untouched by this call. -/
def process (e : DctNFTCreate) (acntSnd : Option Account) (vmInput : ContractCallInput)
    (st : VMState) : ProcResult :=
  match checkDCTNFTCreateBurnAddInput acntSnd vmInput e.funcGasCost with
  | some err => { res := CallResult.failure err, acnt := acntSnd, st := st }
  | none =>
    if vmInput.arguments.length <
        (if vmInput.callType = CallType.execOnDestByCaller then 8 else 7) then
      { res := CallResult.failure PError.errInvalidArguments, acnt := acntSnd, st := st }
    else if vmInput.callType = CallType.execOnDestByCaller then
      if (vmInput.arguments.getLastD []).length ≠ vmInput.callerAddr.length then
        { res := CallResult.failure PError.errInvalidAddressLength, acnt := acntSnd, st := st }
      else if vmInput.arguments.getLastD [] = vmInput.callerAddr then
        { res := CallResult.failure PError.errInvalidRcvAddr, acnt := acntSnd, st := st }
      else
        match loadAccount st.accounts (vmInput.arguments.getLastD []) with
        | none => { res := CallResult.failure PError.errAccountNotFound, acnt := acntSnd, st := st }
        | some accountWithRoles =>
            processWithRoles e acntSnd vmInput st accountWithRoles
              ((vmInput.arguments.drop 6).dropLast)
    else
      match acntSnd with
      | none => { res := CallResult.failure PError.errNilUserAccount, acnt := acntSnd, st := st }
      | some accountWithRoles =>
          processWithRoles e acntSnd vmInput st accountWithRoles (vmInput.arguments.drop 6)

/-- True when the call returned a success output record. -/
def isSuccess (r : ProcResult) : Bool :=
  match r.res with
  | CallResult.success _ => true
  | CallResult.failure _ => false

/-- Return payload of a successful call (empty on failure). -/
def returnDataOf (r : ProcResult) : List Bytes :=
  match r.res with
  | CallResult.success o => o.returnData
  | CallResult.failure _ => []

/-- Remaining gas of a successful call (0 on failure). -/
def gasRemainingOf (r : ProcResult) : Nat :=
  match r.res with
  | CallResult.success o => o.gasRemaining
  | CallResult.failure _ => 0

/-- Events of a successful call (empty on failure). -/
def logsOf (r : ProcResult) : List LogEntry :=
  match r.res with
  | CallResult.success o => o.logs
  | CallResult.failure _ => []

/-- Serialized payloads carried by the emitted events. -/
def logDataOf (r : ProcResult) : List Bytes := (logsOf r).map LogEntry.data

/-- The nonce a subsequent lookup on (resolved account, token identifier)
returns after the call: the resolved account is re-read from the result. -/
def nonceAfter (r : ProcResult) (vmInput : ContractCallInput) : Nat :=
  match resolveAcct r.acnt vmInput r.st with
  | some a => getLatestNonce a (tokenIdArg vmInput)
  | none => 0

/-- URI list of the most recently stored unit (empty when none is stored). -/
def firstUnitUris (r : ProcResult) : List Bytes :=
  match r.st.units with
  | (_, _, _, tok) :: _ => tok.tokenMetaData.uris
  | [] => []

/-- Fixture: handler with unit gas costs, every role granted and a succeeding
serializer. -/
def wEnv : DctNFTCreate :=
  { funcGasCost := 1, storePerByte := 1, roles := fun _ _ _ => true,
    valueLengthCheck := false, marshal := fun _ => some [5] }

/-- Fixture: handler granting only the creation role. -/
def wEnvOnlyCreate : DctNFTCreate :=
  { funcGasCost := 1, storePerByte := 1,
    roles := fun _ _ r => decide (r = roleNFTCreate),
    valueLengthCheck := false, marshal := fun _ => some [5] }

/-- Fixture: a sender account with an empty store. -/
def wAcct : Account := { addr := [1], store := [] }

/-- Fixture: a target account with an empty store. -/
def wTarget : Account := { addr := [2], store := [] }

/-- Fixture: the empty external state. -/
def st0 : VMState := { accounts := [], units := [], liquidity := [] }

/-- Fixture: an external state holding only the target account. -/
def wStExec : VMState := { accounts := [wTarget], units := [], liquidity := [] }

/-- Fixture: a Direct-mode call with 7 arguments and gas exactly the cost. -/
def wInput : ContractCallInput :=
  { callerAddr := [1], recipientAddr := [1], callType := CallType.directCall,
    arguments := [[7], [1], [2], [], [3], [4], [9]], gasProvided := 7,
    returnCallAfterError := false }

/-- Fixture: a Direct-mode call with only 6 arguments. -/
def wInputShort : ContractCallInput :=
  { callerAddr := [1], recipientAddr := [1], callType := CallType.directCall,
    arguments := [[7], [1], [2], [], [3], [4]], gasProvided := 7,
    returnCallAfterError := false }

/-- Fixture: a Resolved-Target call with 8 arguments, target address [2]. -/
def wInputExec : ContractCallInput :=
  { callerAddr := [1], recipientAddr := [1], callType := CallType.execOnDestByCaller,
    arguments := [[7], [1], [2], [], [3], [4], [9], [2]], gasProvided := 8,
    returnCallAfterError := false }

/-- Fixture: a Resolved-Target call whose target equals the caller. -/
def wInputExecSelf : ContractCallInput :=
  { callerAddr := [1], recipientAddr := [1], callType := CallType.execOnDestByCaller,
    arguments := [[7], [1], [2], [], [3], [4], [9], [1]], gasProvided := 8,
    returnCallAfterError := false }

/-- Fixture: a Resolved-Target call whose target has the wrong length. -/
def wInputExecBadLen : ContractCallInput :=
  { callerAddr := [1], recipientAddr := [1], callType := CallType.execOnDestByCaller,
    arguments := [[7], [1], [2], [], [3], [4], [9], [2, 2]], gasProvided := 9,
    returnCallAfterError := false }

/-- Fixture: a Direct-mode call with quantity argument decoding to 0. -/
def wInputQty0 : ContractCallInput :=
  { callerAddr := [1], recipientAddr := [1], callType := CallType.directCall,
    arguments := [[7], [], [2], [], [3], [4], [9]], gasProvided := 6,
    returnCallAfterError := false }

/-- Fixture: a Direct-mode call with quantity argument decoding to 2. -/
def wInputQty2 : ContractCallInput :=
  { callerAddr := [1], recipientAddr := [1], callType := CallType.directCall,
    arguments := [[7], [2], [2], [], [3], [4], [9]], gasProvided := 7,
    returnCallAfterError := false }

/-- Fixture: a Direct-mode call with royalties argument decoding to 10000. -/
def wInputRoy10000 : ContractCallInput :=
  { callerAddr := [1], recipientAddr := [1], callType := CallType.directCall,
    arguments := [[7], [1], [2], [39, 16], [3], [4], [9]], gasProvided := 9,
    returnCallAfterError := false }

/-- Fixture: a Direct-mode call with royalties argument decoding to 10001. -/
def wInputRoy10001 : ContractCallInput :=
  { callerAddr := [1], recipientAddr := [1], callType := CallType.directCall,
    arguments := [[7], [1], [2], [39, 17], [3], [4], [9]], gasProvided := 9,
    returnCallAfterError := false }

/-- Fixture: free handler (zero gas costs), every role granted. -/
def cexEnvC1 : DctNFTCreate :=
  { funcGasCost := 0, storePerByte := 0, roles := fun _ _ _ => true,
    valueLengthCheck := false, marshal := fun _ => some [] }

/-- Fixture: an account whose stored nonce for token [7] is 2^64 - 1. -/
def cexAcctC1 : Account :=
  { addr := [1],
    store := [(getNonceKey [7], [255, 255, 255, 255, 255, 255, 255, 255])] }

/-- Fixture: an account whose stored nonce bytes for token [7] are 9 bytes long
(value 2^64 + 5, truncating to 5). -/
def cexAcctC10 : Account :=
  { addr := [1], store := [(getNonceKey [7], [1, 0, 0, 0, 0, 0, 0, 0, 5])] }

/-- Fixture: a minimal Direct-mode call (7 arguments, 2 argument bytes in
total) providing 0 gas. -/
def cexInputC1 : ContractCallInput :=
  { callerAddr := [1], recipientAddr := [1], callType := CallType.directCall,
    arguments := [[7], [1], [], [], [], [], []], gasProvided := 0,
    returnCallAfterError := false }

/-- Fixture: handler whose per-byte cost is 2^63, so that two argument bytes
overflow the 64-bit gas computation. -/
def cexEnvC2 : DctNFTCreate :=
  { funcGasCost := 0, storePerByte := 2 ^ 63, roles := fun _ _ _ => true,
    valueLengthCheck := false, marshal := fun _ => some [] }

/-- Fixture: a Direct-mode call whose royalties argument decodes to 2^32
(5 bytes), truncating to 0. -/
def cexInputC4 : ContractCallInput :=
  { callerAddr := [1], recipientAddr := [1], callType := CallType.directCall,
    arguments := [[7], [1], [], [1, 0, 0, 0, 0], [], [], []], gasProvided := 0,
    returnCallAfterError := false }

/-- Fixture: handler granting no role at all, with zero gas costs. -/
def cexEnvC6 : DctNFTCreate :=
  { funcGasCost := 0, storePerByte := 0, roles := fun _ _ _ => false,
    valueLengthCheck := false, marshal := fun _ => some [] }

/-- Fixture: a Direct-mode call whose quantity argument decodes to 0. -/
def cexInputC6 : ContractCallInput :=
  { callerAddr := [1], recipientAddr := [1], callType := CallType.directCall,
    arguments := [[7], [], [], [], [], [], []], gasProvided := 0,
    returnCallAfterError := false }

/-! Auxiliary lemmas about encoding, the store and the adapter. -/

lemma beDecode_append_one (l : Bytes) (d : Nat) :
    beDecode (l ++ [d]) = beDecode l * 256 + d := by
  simp [beDecode, List.foldl_append]

lemma beDecode_beEncodeAux : ∀ (fuel n : Nat), n ≤ fuel → beDecode (beEncodeAux fuel n) = n := by
  intro fuel
  induction fuel with
  | zero =>
    intro n h
    have hn : n = 0 := Nat.le_zero.mp h
    subst hn
    rfl
  | succ f ih =>
    intro n h
    cases n with
    | zero => rfl
    | succ m =>
      have hstep : beEncodeAux (f + 1) (m + 1) =
          beEncodeAux f ((m + 1) / 256) ++ [(m + 1) % 256] := rfl
      rw [hstep, beDecode_append_one]
      have h1 : (m + 1) / 256 < m + 1 := Nat.div_lt_self (Nat.succ_pos m) (by norm_num)
      rw [ih ((m + 1) / 256) (by omega)]
      omega

lemma beDecode_beEncode (n : Nat) : beDecode (beEncode n) = n :=
  beDecode_beEncodeAux n n le_rfl

lemma beEncodeAux_ne_nil : ∀ (fuel n : Nat), n ≠ 0 → beEncodeAux (fuel + 1) n ≠ [] := by
  intro fuel n hn
  cases n with
  | zero => exact absurd rfl hn
  | succ m => simp [beEncodeAux]

lemma beEncode_ne_nil (n : Nat) (hn : n ≠ 0) : beEncode n ≠ [] := by
  cases n with
  | zero => exact absurd rfl hn
  | succ m => exact beEncodeAux_ne_nil m (m + 1) hn

lemma u64_lt (n : Nat) : u64 n < 2 ^ 64 := Nat.mod_lt _ (by norm_num)

lemma u64_mul_add (s p c : Nat) : u64 (u64 s * p + c) = u64 (s * p + c) := by
  have h : u64 s * p + c ≡ s * p + c [MOD 2 ^ 64] :=
    Nat.ModEq.add_right c (Nat.ModEq.mul_right p (Nat.mod_modEq s (2 ^ 64)))
  simpa [u64] using h

lemma gasToUse_eq (e : DctNFTCreate) (vmInput : ContractCallInput) :
    gasToUse e vmInput =
      u64 ((vmInput.arguments.map List.length).sum * e.storePerByte + e.funcGasCost) := by
  unfold gasToUse totalArgLength
  exact u64_mul_add _ _ _

lemma storeGet_storePut (s : List (Bytes × Bytes)) (key value : Bytes) :
    storeGet (storePut s key value) key = some value := by
  simp [storeGet, storePut]

lemma saveLatestNonce_addr (acc : Account) (tok : Bytes) (n : Nat) :
    (saveLatestNonce acc tok n).addr = acc.addr := rfl

lemma getLatestNonce_of_none (acc : Account) (tok : Bytes)
    (h : storeGet acc.store (getNonceKey tok) = none) : getLatestNonce acc tok = 0 := by
  unfold getLatestNonce
  rw [h]

lemma getLatestNonce_saveLatestNonce (acc : Account) (tok : Bytes) (n : Nat)
    (h : n < 2 ^ 64) : getLatestNonce (saveLatestNonce acc tok n) tok = n := by
  unfold getLatestNonce saveLatestNonce
  rw [storeGet_storePut]
  show (if beEncode n = [] then 0 else u64 (beDecode (beEncode n))) = n
  cases n with
  | zero => rfl
  | succ m =>
    rw [if_neg (beEncode_ne_nil (m + 1) (Nat.succ_ne_zero m))]
    unfold u64
    rw [beDecode_beEncode]
    exact Nat.mod_eq_of_lt h

lemma loadAccount_addr : ∀ (accs : List Account) (address : Bytes) (acc : Account),
    loadAccount accs address = some acc → acc.addr = address := by
  intro accs
  induction accs with
  | nil => intro address acc h; cases h
  | cons a rest ih =>
    intro address acc h
    unfold loadAccount at h
    split at h
    · next heq =>
      injection h with h2
      rw [← h2]
      exact heq
    · exact ih address acc h

lemma bool_eq_true_of_ne_false {b : Bool} (h : ¬b = false) : b = true := by
  cases b
  · exact absurd rfl h
  · rfl

lemma drop_of_length_succ {α : Type} (d : α) :
    ∀ (n : Nat) (l : List α), l.length = n + 1 → l.drop n = [l.getD n d] := by
  intro n
  induction n with
  | zero =>
    intro l hl
    cases l with
    | nil => cases hl
    | cons a t =>
      cases t with
      | nil => rfl
      | cons b t2 => simp at hl
  | succ n ih =>
    intro l hl
    cases l with
    | nil => cases hl
    | cons a t =>
      have ht : t.length = n + 1 := by simpa using hl
      rw [List.drop_succ_cons, List.getD_cons_succ]
      exact ih t ht

lemma drop_of_length_succ_succ {α : Type} (d : α) :
    ∀ (n : Nat) (l : List α), l.length = n + 2 →
      l.drop n = [l.getD n d, l.getD (n + 1) d] := by
  intro n
  induction n with
  | zero =>
    intro l hl
    cases l with
    | nil => cases hl
    | cons a t =>
      cases t with
      | nil => simp at hl
      | cons b t2 =>
        cases t2 with
        | nil => rfl
        | cons c t3 => simp at hl
  | succ n ih =>
    intro l hl
    cases l with
    | nil => cases hl
    | cons a t =>
      have ht : t.length = n + 2 := by simpa using hl
      rw [List.drop_succ_cons, List.getD_cons_succ, List.getD_cons_succ]
      exact ih t ht

/-! Validity bundles: the conditions the validation chain checks, phrased over
the derived argument views, and the case analysis of the whole call. -/

/-- Conditions of the validation chain from the creation-role check on. -/
def validWithRoles (e : DctNFTCreate) (vmInput : ContractCallInput) (acc : Account) : Prop :=
  e.roles acc.addr (tokenIdArg vmInput) roleNFTCreate = true ∧
  gasToUse e vmInput ≤ vmInput.gasProvided ∧
  royaltiesArg vmInput ≤ maxRoyalty ∧
  quantityArg vmInput ≠ 0 ∧
  (1 < quantityArg vmInput →
    e.roles acc.addr (tokenIdArg vmInput) roleNFTAddQuantity = true) ∧
  (e.valueLengthCheck = true →
    (vmInput.arguments.getD 1 []).length ≤ maxLenForAddNFTQuantity)

/-- Conditions under which the call reaches the validation chain with the given
resolved account: caller equals recipient, argument count at least the minimum
and, in Resolved-Target mode, the address checks pass. -/
def reachable (acntSnd : Option Account) (vmInput : ContractCallInput) (st : VMState)
    (acc : Account) : Prop :=
  vmInput.callerAddr = vmInput.recipientAddr ∧
  (if vmInput.callType = CallType.execOnDestByCaller then 8 else 7) ≤
    vmInput.arguments.length ∧
  (vmInput.callType = CallType.execOnDestByCaller →
    (vmInput.arguments.getLastD []).length = vmInput.callerAddr.length ∧
    vmInput.arguments.getLastD [] ≠ vmInput.callerAddr) ∧
  resolveAcct acntSnd vmInput st = some acc

/-- All preconditions of a successful call. -/
def validCall (e : DctNFTCreate) (acntSnd : Option Account) (vmInput : ContractCallInput)
    (st : VMState) (acc : Account) : Prop :=
  reachable acntSnd vmInput st acc ∧
  e.funcGasCost ≤ vmInput.gasProvided ∧
  validWithRoles e vmInput acc

lemma checkInput_none_iff (account : Option Account) (vmInput : ContractCallInput) (g : Nat) :
    checkDCTNFTCreateBurnAddInput account vmInput g = none ↔
      vmInput.callerAddr = vmInput.recipientAddr ∧
      ¬(account = none ∧ vmInput.callType ≠ CallType.execOnDestByCaller) ∧
      g ≤ vmInput.gasProvided := by
  unfold checkDCTNFTCreateBurnAddInput checkBasicDCTArguments
  split_ifs with h1 h2 h3 <;> simp_all

lemma checkInput_gasfail (account : Option Account) (vmInput : ContractCallInput) (g : Nat)
    (h1 : vmInput.callerAddr = vmInput.recipientAddr)
    (h2 : ¬(account = none ∧ vmInput.callType ≠ CallType.execOnDestByCaller))
    (h3 : vmInput.gasProvided < g) :
    checkDCTNFTCreateBurnAddInput account vmInput g = some PError.errNotEnoughGas := by
  unfold checkDCTNFTCreateBurnAddInput checkBasicDCTArguments
  rw [if_neg (by simp [h1]), if_neg h2, if_pos h3]

lemma processWithRoles_spec (e : DctNFTCreate) (acntSnd : Option Account)
    (vmInput : ContractCallInput) (st : VMState) (acc : Account) (uris : List Bytes) :
    (∃ err, processWithRoles e acntSnd vmInput st acc uris =
        { res := CallResult.failure err, acnt := acntSnd, st := st }) ∨
    (validWithRoles e vmInput acc ∧
      processWithRoles e acntSnd vmInput st acc uris =
        mkSuccess e acntSnd vmInput st acc uris) := by
  unfold processWithRoles
  split_ifs with h1 h2 h3 h4 h5 h6
  · exact Or.inl ⟨_, rfl⟩
  · exact Or.inl ⟨_, rfl⟩
  · exact Or.inl ⟨_, rfl⟩
  · exact Or.inl ⟨_, rfl⟩
  · exact Or.inl ⟨_, rfl⟩
  · exact Or.inl ⟨_, rfl⟩
  · refine Or.inr ⟨⟨bool_eq_true_of_ne_false h1, Nat.le_of_not_lt h2,
      Nat.le_of_not_lt h3, h4, ?_, ?_⟩, rfl⟩
    · intro hq
      cases hx : e.roles acc.addr (tokenIdArg vmInput) roleNFTAddQuantity with
      | false => exact absurd ⟨hq, hx⟩ h5
      | true => rfl
    · intro hl
      by_contra hlen
      exact h6 ⟨hl, Nat.lt_of_not_le hlen⟩

lemma processWithRoles_eq_success (e : DctNFTCreate) (acntSnd : Option Account)
    (vmInput : ContractCallInput) (st : VMState) (acc : Account) (uris : List Bytes)
    (h : validWithRoles e vmInput acc) :
    processWithRoles e acntSnd vmInput st acc uris =
      mkSuccess e acntSnd vmInput st acc uris := by
  obtain ⟨h1, h2, h3, h4, h5, h6⟩ := h
  have n1 : ¬(e.roles acc.addr (tokenIdArg vmInput) roleNFTCreate = false) := by simp [h1]
  have n5 : ¬(1 < quantityArg vmInput ∧
      e.roles acc.addr (tokenIdArg vmInput) roleNFTAddQuantity = false) := by
    rintro ⟨hq, hr⟩
    rw [h5 hq] at hr
    cases hr
  have n6 : ¬(e.valueLengthCheck = true ∧
      maxLenForAddNFTQuantity < (vmInput.arguments.getD 1 []).length) := by
    rintro ⟨hl, hlen⟩
    exact absurd hlen (Nat.not_lt.mpr (h6 hl))
  unfold processWithRoles
  rw [if_neg n1, if_neg (Nat.not_lt.mpr h2), if_neg (Nat.not_lt.mpr h3), if_neg h4,
    if_neg n5, if_neg n6]

lemma processWithRoles_roles_fail (e : DctNFTCreate) (acntSnd : Option Account)
    (vmInput : ContractCallInput) (st : VMState) (acc : Account) (uris : List Bytes)
    (h : e.roles acc.addr (tokenIdArg vmInput) roleNFTCreate = false) :
    processWithRoles e acntSnd vmInput st acc uris =
      { res := CallResult.failure PError.errActionNotAllowed, acnt := acntSnd, st := st } := by
  unfold processWithRoles
  rw [if_pos h]

lemma processWithRoles_gas_fail (e : DctNFTCreate) (acntSnd : Option Account)
    (vmInput : ContractCallInput) (st : VMState) (acc : Account) (uris : List Bytes)
    (h1 : e.roles acc.addr (tokenIdArg vmInput) roleNFTCreate = true)
    (h2 : vmInput.gasProvided < gasToUse e vmInput) :
    processWithRoles e acntSnd vmInput st acc uris =
      { res := CallResult.failure PError.errNotEnoughGas, acnt := acntSnd, st := st } := by
  unfold processWithRoles
  rw [if_neg (by simp [h1] :
    ¬(e.roles acc.addr (tokenIdArg vmInput) roleNFTCreate = false)), if_pos h2]

lemma processWithRoles_royalty_fail (e : DctNFTCreate) (acntSnd : Option Account)
    (vmInput : ContractCallInput) (st : VMState) (acc : Account) (uris : List Bytes)
    (h1 : e.roles acc.addr (tokenIdArg vmInput) roleNFTCreate = true)
    (h2 : gasToUse e vmInput ≤ vmInput.gasProvided)
    (h3 : maxRoyalty < royaltiesArg vmInput) :
    processWithRoles e acntSnd vmInput st acc uris =
      { res := CallResult.failure PError.errInvalidArguments, acnt := acntSnd, st := st } := by
  unfold processWithRoles
  rw [if_neg (by simp [h1] :
      ¬(e.roles acc.addr (tokenIdArg vmInput) roleNFTCreate = false)),
    if_neg (Nat.not_lt.mpr h2), if_pos h3]

lemma processWithRoles_quantity_zero_fail (e : DctNFTCreate) (acntSnd : Option Account)
    (vmInput : ContractCallInput) (st : VMState) (acc : Account) (uris : List Bytes)
    (h1 : e.roles acc.addr (tokenIdArg vmInput) roleNFTCreate = true)
    (h2 : gasToUse e vmInput ≤ vmInput.gasProvided)
    (h3 : royaltiesArg vmInput ≤ maxRoyalty)
    (h4 : quantityArg vmInput = 0) :
    processWithRoles e acntSnd vmInput st acc uris =
      { res := CallResult.failure PError.errInvalidArguments, acnt := acntSnd, st := st } := by
  unfold processWithRoles
  rw [if_neg (by simp [h1] :
      ¬(e.roles acc.addr (tokenIdArg vmInput) roleNFTCreate = false)),
    if_neg (Nat.not_lt.mpr h2), if_neg (Nat.not_lt.mpr h3), if_pos h4]

lemma processWithRoles_addqty_fail (e : DctNFTCreate) (acntSnd : Option Account)
    (vmInput : ContractCallInput) (st : VMState) (acc : Account) (uris : List Bytes)
    (h1 : e.roles acc.addr (tokenIdArg vmInput) roleNFTCreate = true)
    (h2 : gasToUse e vmInput ≤ vmInput.gasProvided)
    (h3 : royaltiesArg vmInput ≤ maxRoyalty)
    (h4 : 1 < quantityArg vmInput)
    (h5 : e.roles acc.addr (tokenIdArg vmInput) roleNFTAddQuantity = false) :
    processWithRoles e acntSnd vmInput st acc uris =
      { res := CallResult.failure PError.errActionNotAllowed, acnt := acntSnd, st := st } := by
  unfold processWithRoles
  rw [if_neg (by simp [h1] :
      ¬(e.roles acc.addr (tokenIdArg vmInput) roleNFTCreate = false)),
    if_neg (Nat.not_lt.mpr h2), if_neg (Nat.not_lt.mpr h3),
    if_neg (by omega : ¬(quantityArg vmInput = 0)), if_pos ⟨h4, h5⟩]

lemma process_check_fail (e : DctNFTCreate) (acntSnd : Option Account)
    (vmInput : ContractCallInput) (st : VMState) (err : PError)
    (h : checkDCTNFTCreateBurnAddInput acntSnd vmInput e.funcGasCost = some err) :
    process e acntSnd vmInput st =
      { res := CallResult.failure err, acnt := acntSnd, st := st } := by
  unfold process
  rw [h]

lemma process_count_fail (e : DctNFTCreate) (acntSnd : Option Account)
    (vmInput : ContractCallInput) (st : VMState)
    (hchk : checkDCTNFTCreateBurnAddInput acntSnd vmInput e.funcGasCost = none)
    (hlen : vmInput.arguments.length <
      (if vmInput.callType = CallType.execOnDestByCaller then 8 else 7)) :
    process e acntSnd vmInput st =
      { res := CallResult.failure PError.errInvalidArguments, acnt := acntSnd, st := st } := by
  unfold process
  rw [hchk]
  exact if_pos hlen

lemma process_eq_withRoles (e : DctNFTCreate) (acntSnd : Option Account)
    (vmInput : ContractCallInput) (st : VMState) (acc : Account)
    (hr : reachable acntSnd vmInput st acc)
    (hg : e.funcGasCost ≤ vmInput.gasProvided) :
    process e acntSnd vmInput st =
      processWithRoles e acntSnd vmInput st acc (urisOf vmInput) := by
  obtain ⟨h1, h2, h3, h4⟩ := hr
  have hnil : ¬(acntSnd = none ∧ vmInput.callType ≠ CallType.execOnDestByCaller) := by
    rintro ⟨hs, hct⟩
    unfold resolveAcct at h4
    rw [if_neg hct, hs] at h4
    cases h4
  have hchk : checkDCTNFTCreateBurnAddInput acntSnd vmInput e.funcGasCost = none :=
    (checkInput_none_iff acntSnd vmInput e.funcGasCost).mpr ⟨h1, hnil, hg⟩
  unfold process
  rw [hchk, if_neg (Nat.not_lt.mpr h2)]
  by_cases hct : vmInput.callType = CallType.execOnDestByCaller
  · unfold resolveAcct at h4
    rw [if_pos hct] at h4
    obtain ⟨hlen, hne⟩ := h3 hct
    rw [if_pos hct, if_neg (not_ne_iff.mpr hlen), if_neg hne, h4]
    unfold urisOf
    rw [if_pos hct]
  · unfold resolveAcct at h4
    rw [if_neg hct] at h4
    rw [if_neg hct, h4]
    unfold urisOf
    rw [if_neg hct]

lemma process_spec (e : DctNFTCreate) (acntSnd : Option Account)
    (vmInput : ContractCallInput) (st : VMState) :
    (∃ err, process e acntSnd vmInput st =
        { res := CallResult.failure err, acnt := acntSnd, st := st }) ∨
    (∃ acc, validCall e acntSnd vmInput st acc ∧
      process e acntSnd vmInput st = mkSuccess e acntSnd vmInput st acc (urisOf vmInput)) := by
  by_cases hchk : checkDCTNFTCreateBurnAddInput acntSnd vmInput e.funcGasCost = none
  case neg =>
    obtain ⟨err, herr⟩ := Option.ne_none_iff_exists'.mp hchk
    exact Or.inl ⟨err, process_check_fail e acntSnd vmInput st err herr⟩
  case pos =>
    obtain ⟨h1, hnil, hg⟩ := (checkInput_none_iff acntSnd vmInput e.funcGasCost).mp hchk
    by_cases hlen : vmInput.arguments.length <
        (if vmInput.callType = CallType.execOnDestByCaller then 8 else 7)
    · exact Or.inl ⟨_, process_count_fail e acntSnd vmInput st hchk hlen⟩
    · by_cases hct : vmInput.callType = CallType.execOnDestByCaller
      · by_cases haddr : (vmInput.arguments.getLastD []).length ≠ vmInput.callerAddr.length
        · refine Or.inl ⟨PError.errInvalidAddressLength, ?_⟩
          unfold process
          rw [hchk, if_neg hlen, if_pos hct, if_pos haddr]
        · by_cases heq : vmInput.arguments.getLastD [] = vmInput.callerAddr
          · refine Or.inl ⟨PError.errInvalidRcvAddr, ?_⟩
            unfold process
            rw [hchk, if_neg hlen, if_pos hct, if_neg haddr, if_pos heq]
          · cases hload : loadAccount st.accounts (vmInput.arguments.getLastD []) with
            | none =>
              refine Or.inl ⟨PError.errAccountNotFound, ?_⟩
              unfold process
              rw [hchk, if_neg hlen, if_pos hct, if_neg haddr, if_neg heq, hload]
            | some acc =>
              have hres : resolveAcct acntSnd vmInput st = some acc := by
                unfold resolveAcct
                rw [if_pos hct]
                exact hload
              have hreach : reachable acntSnd vmInput st acc :=
                ⟨h1, Nat.not_lt.mp hlen, fun _ => ⟨not_ne_iff.mp haddr, heq⟩, hres⟩
              have heqp := process_eq_withRoles e acntSnd vmInput st acc hreach hg
              rcases processWithRoles_spec e acntSnd vmInput st acc (urisOf vmInput) with
                ⟨err, hf⟩ | ⟨hv, hs⟩
              · exact Or.inl ⟨err, by rw [heqp]; exact hf⟩
              · exact Or.inr ⟨acc, ⟨hreach, hg, hv⟩, by rw [heqp]; exact hs⟩
      · cases hsnd : acntSnd with
        | none =>
          refine Or.inl ⟨PError.errNilUserAccount, ?_⟩
          rw [hsnd] at hchk
          unfold process
          rw [hchk, if_neg hlen, if_neg hct]
        | some acc =>
          rw [hsnd] at hchk
          have hres : resolveAcct (some acc) vmInput st = some acc := by
            unfold resolveAcct
            rw [if_neg hct]
          have hreach : reachable (some acc) vmInput st acc :=
            ⟨h1, Nat.not_lt.mp hlen, fun hc => absurd hc hct, hres⟩
          have heqp := process_eq_withRoles e (some acc) vmInput st acc hreach hg
          rcases processWithRoles_spec e (some acc) vmInput st acc (urisOf vmInput) with
            ⟨err, hf⟩ | ⟨hv, hs⟩
          · exact Or.inl ⟨err, by rw [heqp]; exact hf⟩
          · exact Or.inr ⟨acc, ⟨hreach, hg, hv⟩, by rw [heqp]; exact hs⟩

lemma mkSuccess_isSuccess (e : DctNFTCreate) (acntSnd : Option Account)
    (vmInput : ContractCallInput) (st : VMState) (acc : Account) (uris : List Bytes) :
    isSuccess (mkSuccess e acntSnd vmInput st acc uris) = true := rfl

lemma returnDataOf_mkSuccess (e : DctNFTCreate) (acntSnd : Option Account)
    (vmInput : ContractCallInput) (st : VMState) (acc : Account) (uris : List Bytes) :
    returnDataOf (mkSuccess e acntSnd vmInput st acc uris) =
      [beEncode (u64 (getLatestNonce acc (tokenIdArg vmInput) + 1))] := rfl

lemma gasRemainingOf_mkSuccess (e : DctNFTCreate) (acntSnd : Option Account)
    (vmInput : ContractCallInput) (st : VMState) (acc : Account) (uris : List Bytes) :
    gasRemainingOf (mkSuccess e acntSnd vmInput st acc uris) =
      vmInput.gasProvided - gasToUse e vmInput := rfl

lemma logsOf_mkSuccess (e : DctNFTCreate) (acntSnd : Option Account)
    (vmInput : ContractCallInput) (st : VMState) (acc : Account) (uris : List Bytes) :
    logsOf (mkSuccess e acntSnd vmInput st acc uris) =
      [LogEntry.mk builtInFunctionDCTNFTCreate (tokenIdArg vmInput)
        (u64 (getLatestNonce acc (tokenIdArg vmInput) + 1)) (quantityArg vmInput)
        vmInput.callerAddr ((e.marshal (mkDctData vmInput acc uris)).getD [])] := rfl

lemma mkSuccess_acnt (e : DctNFTCreate) (acntSnd : Option Account)
    (vmInput : ContractCallInput) (st : VMState) (acc : Account) (uris : List Bytes) :
    (mkSuccess e acntSnd vmInput st acc uris).acnt =
      if vmInput.callType = CallType.execOnDestByCaller then acntSnd
      else some (saveLatestNonce acc (tokenIdArg vmInput)
        (u64 (getLatestNonce acc (tokenIdArg vmInput) + 1))) := rfl

lemma mkSuccess_units (e : DctNFTCreate) (acntSnd : Option Account)
    (vmInput : ContractCallInput) (st : VMState) (acc : Account) (uris : List Bytes) :
    (mkSuccess e acntSnd vmInput st acc uris).st.units =
      (acc.addr, dctKeyPrefixBytes ++ tokenIdArg vmInput,
        u64 (getLatestNonce acc (tokenIdArg vmInput) + 1), mkDctData vmInput acc uris)
        :: st.units := by
  simp only [mkSuccess, saveDCTNFTToken, addToLiquiditySystemAcc, saveAccount]
  split <;> rfl

lemma mkSuccess_accounts (e : DctNFTCreate) (acntSnd : Option Account)
    (vmInput : ContractCallInput) (st : VMState) (acc : Account) (uris : List Bytes) :
    (mkSuccess e acntSnd vmInput st acc uris).st.accounts =
      if vmInput.callType = CallType.execOnDestByCaller then
        saveLatestNonce acc (tokenIdArg vmInput)
          (u64 (getLatestNonce acc (tokenIdArg vmInput) + 1)) :: st.accounts
      else st.accounts := by
  simp only [mkSuccess, saveDCTNFTToken, addToLiquiditySystemAcc, saveAccount]
  split <;> rfl

lemma mkSuccess_liquidity (e : DctNFTCreate) (acntSnd : Option Account)
    (vmInput : ContractCallInput) (st : VMState) (acc : Account) (uris : List Bytes) :
    (mkSuccess e acntSnd vmInput st acc uris).st.liquidity =
      (dctKeyPrefixBytes ++ tokenIdArg vmInput,
        u64 (getLatestNonce acc (tokenIdArg vmInput) + 1), quantityArg vmInput)
        :: st.liquidity := by
  simp only [mkSuccess, saveDCTNFTToken, addToLiquiditySystemAcc, saveAccount]
  split <;> rfl

lemma nonceAfter_mkSuccess (e : DctNFTCreate) (acntSnd : Option Account)
    (vmInput : ContractCallInput) (st : VMState) (acc : Account) (uris : List Bytes)
    (hacc : resolveAcct acntSnd vmInput st = some acc) :
    nonceAfter (mkSuccess e acntSnd vmInput st acc uris) vmInput =
      u64 (getLatestNonce acc (tokenIdArg vmInput) + 1) := by
  unfold nonceAfter
  by_cases hct : vmInput.callType = CallType.execOnDestByCaller
  · have haddr : acc.addr = vmInput.arguments.getLastD [] := by
      unfold resolveAcct at hacc
      rw [if_pos hct] at hacc
      exact loadAccount_addr st.accounts (vmInput.arguments.getLastD []) acc hacc
    have hsave : (saveLatestNonce acc (tokenIdArg vmInput)
        (u64 (getLatestNonce acc (tokenIdArg vmInput) + 1))).addr =
        vmInput.arguments.getLastD [] := by
      rw [saveLatestNonce_addr]
      exact haddr
    unfold resolveAcct
    rw [if_pos hct, mkSuccess_accounts, if_pos hct]
    unfold loadAccount
    rw [if_pos hsave]
    exact getLatestNonce_saveLatestNonce acc (tokenIdArg vmInput) _ (u64_lt _)
  · unfold resolveAcct
    rw [if_neg hct, mkSuccess_acnt, if_neg hct]
    exact getLatestNonce_saveLatestNonce acc (tokenIdArg vmInput) _ (u64_lt _)

lemma resolveAcct_not_nil (acntSnd : Option Account) (vmInput : ContractCallInput)
    (st : VMState) (acc : Account) (h : resolveAcct acntSnd vmInput st = some acc) :
    ¬(acntSnd = none ∧ vmInput.callType ≠ CallType.execOnDestByCaller) := by
  rintro ⟨hs, hct⟩
  unfold resolveAcct at h
  rw [if_neg hct, hs] at h
  cases h

lemma process_success_acc_unique (e : DctNFTCreate) (acntSnd : Option Account)
    (vmInput : ContractCallInput) (st : VMState) (acc : Account)
    (hacc : resolveAcct acntSnd vmInput st = some acc)
    (hs : isSuccess (process e acntSnd vmInput st) = true) :
    validCall e acntSnd vmInput st acc ∧
      process e acntSnd vmInput st = mkSuccess e acntSnd vmInput st acc (urisOf vmInput) := by
  rcases process_spec e acntSnd vmInput st with ⟨err, heq⟩ | ⟨acc2, hv, heq⟩
  · rw [heq] at hs
    cases hs
  · have hacc2 : resolveAcct acntSnd vmInput st = some acc2 := hv.1.2.2.2
    rw [hacc] at hacc2
    injection hacc2 with h2
    subst h2
    exact ⟨hv, heq⟩

/-- C3: for every call that returns an error, no state mutation has been
performed — the result carries the sender account and the external state
(units, liquidity, adapter accounts, hence every nonce) exactly as they were
before the call. -/
theorem C3_no_mutation_on_error (e : DctNFTCreate) (acntSnd : Option Account)
    (vmInput : ContractCallInput) (st : VMState) (err : PError)
    (h : (process e acntSnd vmInput st).res = CallResult.failure err) :
    process e acntSnd vmInput st =
      { res := CallResult.failure err, acnt := acntSnd, st := st } := by
  rcases process_spec e acntSnd vmInput st with ⟨err2, heq⟩ | ⟨acc, hv, heq⟩
  · have herr : err2 = err := by
      rw [heq] at h
      simpa using h
    rw [← herr]
    exact heq
  · exfalso
    have hs := mkSuccess_isSuccess e acntSnd vmInput st acc (urisOf vmInput)
    rw [heq] at h
    simp [isSuccess, h] at hs

theorem C3_no_mutation_on_error_witness :
    process wEnv (some wAcct) { wInput with gasProvided := 6 } st0 =
      { res := CallResult.failure PError.errNotEnoughGas, acnt := some wAcct, st := st0 } :=
  C3_no_mutation_on_error wEnv (some wAcct) { wInput with gasProvided := 6 } st0
    PError.errNotEnoughGas (by decide)

/-- C8: on every successful call the stored unit is the constructed unit whose
metadata creator field is the original caller address from the call record; in
Resolved-Target mode the creator therefore differs from the resolved target
address. -/
theorem C8_creator_is_caller (e : DctNFTCreate) (acntSnd : Option Account)
    (vmInput : ContractCallInput) (st : VMState) (acc : Account)
    (hacc : resolveAcct acntSnd vmInput st = some acc)
    (hs : isSuccess (process e acntSnd vmInput st) = true) :
    (process e acntSnd vmInput st).st.units =
      (acc.addr, dctKeyPrefixBytes ++ tokenIdArg vmInput,
        u64 (getLatestNonce acc (tokenIdArg vmInput) + 1),
        mkDctData vmInput acc (urisOf vmInput)) :: st.units ∧
    (mkDctData vmInput acc (urisOf vmInput)).tokenMetaData.creator = vmInput.callerAddr ∧
    (vmInput.callType = CallType.execOnDestByCaller →
      (mkDctData vmInput acc (urisOf vmInput)).tokenMetaData.creator ≠ acc.addr) := by
  obtain ⟨hv, heq⟩ := process_success_acc_unique e acntSnd vmInput st acc hacc hs
  refine ⟨?_, rfl, ?_⟩
  · rw [heq, mkSuccess_units]
  · intro hct
    obtain ⟨hlen, hne⟩ := hv.1.2.2.1 hct
    have haddr : acc.addr = vmInput.arguments.getLastD [] := by
      have hres := hv.1.2.2.2
      unfold resolveAcct at hres
      rw [if_pos hct] at hres
      exact loadAccount_addr st.accounts (vmInput.arguments.getLastD []) acc hres
    show vmInput.callerAddr ≠ acc.addr
    rw [haddr]
    exact fun hcc => hne hcc.symm

theorem C8_creator_is_caller_witness :
    (process wEnv (some wAcct) wInputExec wStExec).st.units =
      (wTarget.addr, dctKeyPrefixBytes ++ tokenIdArg wInputExec,
        u64 (getLatestNonce wTarget (tokenIdArg wInputExec) + 1),
        mkDctData wInputExec wTarget (urisOf wInputExec)) :: wStExec.units ∧
    (mkDctData wInputExec wTarget (urisOf wInputExec)).tokenMetaData.creator =
      wInputExec.callerAddr ∧
    (wInputExec.callType = CallType.execOnDestByCaller →
      (mkDctData wInputExec wTarget (urisOf wInputExec)).tokenMetaData.creator ≠
        wTarget.addr) :=
  C8_creator_is_caller wEnv (some wAcct) wInputExec wStExec wTarget (by decide) (by decide)

/-- C1 (amended): on every successful creation call the return payload encodes
(priorNonce + 1) mod 2^64 big-endian, that value is written to the nonce ledger
of the resolved account and a subsequent lookup there returns it, and a prior
nonce with no stored value reads as 0.  The modulo 2^64 reduction is forced by
the counterexample at the wrap-around point. -/
theorem C1_nonce_payload (e : DctNFTCreate) (acntSnd : Option Account)
    (vmInput : ContractCallInput) (st : VMState) (acc : Account)
    (hacc : resolveAcct acntSnd vmInput st = some acc)
    (hs : isSuccess (process e acntSnd vmInput st) = true) :
    returnDataOf (process e acntSnd vmInput st) =
      [beEncode (u64 (getLatestNonce acc (tokenIdArg vmInput) + 1))] ∧
    nonceAfter (process e acntSnd vmInput st) vmInput =
      u64 (getLatestNonce acc (tokenIdArg vmInput) + 1) ∧
    (storeGet acc.store (getNonceKey (tokenIdArg vmInput)) = none →
      getLatestNonce acc (tokenIdArg vmInput) = 0) := by
  obtain ⟨hv, heq⟩ := process_success_acc_unique e acntSnd vmInput st acc hacc hs
  refine ⟨?_, ?_, getLatestNonce_of_none acc (tokenIdArg vmInput)⟩
  · rw [heq, returnDataOf_mkSuccess]
  · rw [heq]
    exact nonceAfter_mkSuccess e acntSnd vmInput st acc (urisOf vmInput) hacc

theorem C1_nonce_payload_witness :
    returnDataOf (process wEnv (some wAcct) wInput st0) =
      [beEncode (u64 (getLatestNonce wAcct (tokenIdArg wInput) + 1))] ∧
    nonceAfter (process wEnv (some wAcct) wInput st0) wInput =
      u64 (getLatestNonce wAcct (tokenIdArg wInput) + 1) ∧
    (storeGet wAcct.store (getNonceKey (tokenIdArg wInput)) = none →
      getLatestNonce wAcct (tokenIdArg wInput) = 0) :=
  C1_nonce_payload wEnv (some wAcct) wInput st0 wAcct (by decide) (by decide)

/-- C1 counterexample: with a stored prior nonce of 2^64 - 1 the call succeeds,
yet the returned payload and a subsequent lookup give 0, not priorNonce + 1 —
the claim without the modulo 2^64 reduction is false on the code. -/
theorem C1_claim_counterexample :
    isSuccess (process cexEnvC1 (some cexAcctC1) cexInputC1 st0) = true ∧
    getLatestNonce cexAcctC1 (tokenIdArg cexInputC1) = 2 ^ 64 - 1 ∧
    returnDataOf (process cexEnvC1 (some cexAcctC1) cexInputC1 st0) ≠
      [beEncode (getLatestNonce cexAcctC1 (tokenIdArg cexInputC1) + 1)] ∧
    nonceAfter (process cexEnvC1 (some cexAcctC1) cexInputC1 st0) cexInputC1 ≠
      getLatestNonce cexAcctC1 (tokenIdArg cexInputC1) + 1 := by
  decide

/-- C10: nonce arithmetic at the interface is fixed-width 64-bit — a stored
nonce decodes to its big-endian value reduced modulo 2^64 (a stored value
longer than 8 bytes silently truncates to its low 64 bits), and on a
successful call the payload and the subsequently readable nonce are the prior
value plus 1 reduced modulo 2^64, not the arbitrary-precision sum. -/
theorem C10_nonce_fixed_width (acnt : Account) (tok bs : Bytes)
    (hstore : storeGet acnt.store (getNonceKey tok) = some bs) (hne : bs ≠ [])
    (e : DctNFTCreate) (acntSnd : Option Account) (vmInput : ContractCallInput)
    (st : VMState) (acc : Account)
    (hacc : resolveAcct acntSnd vmInput st = some acc)
    (hs : isSuccess (process e acntSnd vmInput st) = true) :
    getLatestNonce acnt tok = beDecode bs % 2 ^ 64 ∧
    returnDataOf (process e acntSnd vmInput st) =
      [beEncode ((getLatestNonce acc (tokenIdArg vmInput) + 1) % 2 ^ 64)] ∧
    nonceAfter (process e acntSnd vmInput st) vmInput =
      (getLatestNonce acc (tokenIdArg vmInput) + 1) % 2 ^ 64 := by
  obtain ⟨hv, heq⟩ := process_success_acc_unique e acntSnd vmInput st acc hacc hs
  refine ⟨?_, ?_, ?_⟩
  · unfold getLatestNonce
    rw [hstore]
    show (if bs = [] then 0 else u64 (beDecode bs)) = beDecode bs % 2 ^ 64
    rw [if_neg hne]
    rfl
  · rw [heq, returnDataOf_mkSuccess]
    rfl
  · rw [heq]
    exact nonceAfter_mkSuccess e acntSnd vmInput st acc (urisOf vmInput) hacc

theorem C10_nonce_fixed_width_witness :
    getLatestNonce cexAcctC10 [7] =
      beDecode [1, 0, 0, 0, 0, 0, 0, 0, 5] % 2 ^ 64 ∧
    returnDataOf (process cexEnvC1 (some cexAcctC10) cexInputC1 st0) =
      [beEncode ((getLatestNonce cexAcctC10 (tokenIdArg cexInputC1) + 1) % 2 ^ 64)] ∧
    nonceAfter (process cexEnvC1 (some cexAcctC10) cexInputC1 st0) cexInputC1 =
      (getLatestNonce cexAcctC10 (tokenIdArg cexInputC1) + 1) % 2 ^ 64 :=
  C10_nonce_fixed_width cexAcctC10 [7] [1, 0, 0, 0, 0, 0, 0, 0, 5] (by decide) (by decide)
    cexEnvC1 (some cexAcctC10) cexInputC1 st0 cexAcctC10 (by decide) (by decide)

/-- C2 (amended): the gas charged is ((sum of the argument byte lengths) times
the per-byte storage cost plus the base cost) reduced modulo 2^64; under the
other preconditions, providing exactly that amount (when it is at least the
base cost) succeeds with gas remaining 0, and providing one unit less (when
the amount is positive) fails with insufficient-gas leaving the sender account
and the state — hence the nonce — untouched.  The modulo 2^64 reduction is
forced by the counterexample under 64-bit overflow. -/
theorem C2_gas_accounting (e : DctNFTCreate) (acntSnd : Option Account)
    (vmInput : ContractCallInput) (st : VMState) (acc : Account)
    (h1 : vmInput.callerAddr = vmInput.recipientAddr)
    (h2 : (if vmInput.callType = CallType.execOnDestByCaller then 8 else 7) ≤
      vmInput.arguments.length)
    (h3 : vmInput.callType = CallType.execOnDestByCaller →
      (vmInput.arguments.getLastD []).length = vmInput.callerAddr.length ∧
      vmInput.arguments.getLastD [] ≠ vmInput.callerAddr)
    (h4 : resolveAcct acntSnd vmInput st = some acc)
    (h5 : e.roles acc.addr (tokenIdArg vmInput) roleNFTCreate = true)
    (h6 : royaltiesArg vmInput ≤ maxRoyalty)
    (h7 : quantityArg vmInput ≠ 0)
    (h8 : 1 < quantityArg vmInput →
      e.roles acc.addr (tokenIdArg vmInput) roleNFTAddQuantity = true)
    (h9 : e.valueLengthCheck = true →
      (vmInput.arguments.getD 1 []).length ≤ maxLenForAddNFTQuantity) :
    gasToUse e vmInput =
      u64 ((vmInput.arguments.map List.length).sum * e.storePerByte + e.funcGasCost) ∧
    (isSuccess (process e acntSnd vmInput st) = true →
      gasRemainingOf (process e acntSnd vmInput st) =
        vmInput.gasProvided - gasToUse e vmInput) ∧
    (e.funcGasCost ≤ gasToUse e vmInput →
      isSuccess (process e acntSnd
        { vmInput with gasProvided := gasToUse e vmInput } st) = true ∧
      gasRemainingOf (process e acntSnd
        { vmInput with gasProvided := gasToUse e vmInput } st) = 0) ∧
    (0 < gasToUse e vmInput →
      process e acntSnd { vmInput with gasProvided := gasToUse e vmInput - 1 } st =
        { res := CallResult.failure PError.errNotEnoughGas, acnt := acntSnd, st := st }) := by
  refine ⟨gasToUse_eq e vmInput, ?_, ?_, ?_⟩
  · intro hs
    rcases process_spec e acntSnd vmInput st with ⟨err, heq⟩ | ⟨acc2, hv, heq⟩
    · rw [heq] at hs
      cases hs
    · rw [heq, gasRemainingOf_mkSuccess]
  · intro hbase
    have hreach : reachable acntSnd { vmInput with gasProvided := gasToUse e vmInput } st acc :=
      ⟨h1, h2, h3, h4⟩
    have hvr : validWithRoles e { vmInput with gasProvided := gasToUse e vmInput } acc :=
      ⟨h5, le_refl (gasToUse e vmInput), h6, h7, h8, h9⟩
    have heq : process e acntSnd { vmInput with gasProvided := gasToUse e vmInput } st =
        mkSuccess e acntSnd { vmInput with gasProvided := gasToUse e vmInput } st acc
          (urisOf { vmInput with gasProvided := gasToUse e vmInput }) := by
      rw [process_eq_withRoles e acntSnd _ st acc hreach hbase]
      exact processWithRoles_eq_success e acntSnd _ st acc _ hvr
    constructor
    · rw [heq]
      exact mkSuccess_isSuccess e acntSnd _ st acc _
    · rw [heq, gasRemainingOf_mkSuccess]
      exact Nat.sub_self (gasToUse e vmInput)
  · intro hpos
    by_cases hb : e.funcGasCost ≤ gasToUse e vmInput - 1
    · have hreach : reachable acntSnd
          { vmInput with gasProvided := gasToUse e vmInput - 1 } st acc :=
        ⟨h1, h2, h3, h4⟩
      rw [process_eq_withRoles e acntSnd _ st acc hreach hb]
      exact processWithRoles_gas_fail e acntSnd _ st acc _ h5
        (by show gasToUse e vmInput - 1 < gasToUse e vmInput; omega)
    · have hnil := resolveAcct_not_nil acntSnd vmInput st acc h4
      exact process_check_fail e acntSnd _ st PError.errNotEnoughGas
        (checkInput_gasfail acntSnd _ e.funcGasCost h1 hnil
          (by show gasToUse e vmInput - 1 < e.funcGasCost; omega))

theorem C2_gas_accounting_witness :
    gasToUse wEnv wInput =
      u64 ((wInput.arguments.map List.length).sum * wEnv.storePerByte + wEnv.funcGasCost) ∧
    isSuccess (process wEnv (some wAcct)
      { wInput with gasProvided := gasToUse wEnv wInput } st0) = true ∧
    gasRemainingOf (process wEnv (some wAcct)
      { wInput with gasProvided := gasToUse wEnv wInput } st0) = 0 ∧
    process wEnv (some wAcct) { wInput with gasProvided := gasToUse wEnv wInput - 1 } st0 =
      { res := CallResult.failure PError.errNotEnoughGas, acnt := some wAcct, st := st0 } := by
  have h := C2_gas_accounting wEnv (some wAcct) wInput st0 wAcct (by decide) (by decide)
    (by decide) (by decide) (by decide) (by decide) (by decide) (by decide) (by decide)
  exact ⟨h.1, (h.2.2.1 (by decide)).1, (h.2.2.1 (by decide)).2, h.2.2.2 (by decide)⟩

/-- C2 counterexample: with a per-byte cost of 2^63 and two argument bytes the
exact (un-reduced) formula gives 2^64 plus the base cost, yet a call providing
0 gas — strictly less than that exact amount — succeeds, because the charge is
computed modulo 2^64. -/
theorem C2_claim_counterexample :
    isSuccess (process cexEnvC2 (some wAcct) cexInputC1 st0) = true ∧
    cexInputC1.gasProvided <
      (cexInputC1.arguments.map List.length).sum * cexEnvC2.storePerByte +
        cexEnvC2.funcGasCost := by
  decide

/-- C4 (amended): argument 3 is decoded big-endian and truncated to its low 32
bits (uint32 of its uint64 value); when the checks before the royalty check
pass, a truncated value above 10000 fails with invalid-arguments leaving
everything untouched, and a truncated value of at most 10000 (10000 itself
included) passes the royalty check, the call succeeding under the remaining
preconditions; 10001 is rejected.  The truncation is forced by the
counterexample at value 2^32. -/
theorem C4_royalties_bound (e : DctNFTCreate) (acntSnd : Option Account)
    (vmInput : ContractCallInput) (st : VMState) (acc : Account)
    (h1 : vmInput.callerAddr = vmInput.recipientAddr)
    (h2 : (if vmInput.callType = CallType.execOnDestByCaller then 8 else 7) ≤
      vmInput.arguments.length)
    (h3 : vmInput.callType = CallType.execOnDestByCaller →
      (vmInput.arguments.getLastD []).length = vmInput.callerAddr.length ∧
      vmInput.arguments.getLastD [] ≠ vmInput.callerAddr)
    (h4 : resolveAcct acntSnd vmInput st = some acc)
    (h5 : e.roles acc.addr (tokenIdArg vmInput) roleNFTCreate = true)
    (hbase : e.funcGasCost ≤ vmInput.gasProvided)
    (hgas : gasToUse e vmInput ≤ vmInput.gasProvided) :
    royaltiesArg vmInput = beDecode (vmInput.arguments.getD 3 []) % 2 ^ 32 ∧
    (maxRoyalty < royaltiesArg vmInput →
      process e acntSnd vmInput st =
        { res := CallResult.failure PError.errInvalidArguments, acnt := acntSnd, st := st }) ∧
    (royaltiesArg vmInput ≤ maxRoyalty →
      quantityArg vmInput ≠ 0 →
      (1 < quantityArg vmInput →
        e.roles acc.addr (tokenIdArg vmInput) roleNFTAddQuantity = true) →
      (e.valueLengthCheck = true →
        (vmInput.arguments.getD 1 []).length ≤ maxLenForAddNFTQuantity) →
      isSuccess (process e acntSnd vmInput st) = true) := by
  have hreach : reachable acntSnd vmInput st acc := ⟨h1, h2, h3, h4⟩
  refine ⟨?_, ?_, ?_⟩
  · unfold royaltiesArg u32 u64
    exact Nat.mod_mod_of_dvd _ ⟨2 ^ 32, by norm_num⟩
  · intro hroy
    rw [process_eq_withRoles e acntSnd vmInput st acc hreach hbase]
    exact processWithRoles_royalty_fail e acntSnd vmInput st acc _ h5 hgas hroy
  · intro hroy hq hqr hlen
    rw [process_eq_withRoles e acntSnd vmInput st acc hreach hbase,
      processWithRoles_eq_success e acntSnd vmInput st acc _ ⟨h5, hgas, hroy, hq, hqr, hlen⟩]
    exact mkSuccess_isSuccess e acntSnd vmInput st acc _

theorem C4_royalties_bound_witness :
    royaltiesArg wInputRoy10000 = beDecode (wInputRoy10000.arguments.getD 3 []) % 2 ^ 32 ∧
    royaltiesArg wInputRoy10000 = 10000 ∧
    isSuccess (process wEnv (some wAcct) wInputRoy10000 st0) = true ∧
    royaltiesArg wInputRoy10001 = 10001 ∧
    process wEnv (some wAcct) wInputRoy10001 st0 =
      { res := CallResult.failure PError.errInvalidArguments, acnt := some wAcct, st := st0 } := by
  have ha := C4_royalties_bound wEnv (some wAcct) wInputRoy10000 st0 wAcct (by decide)
    (by decide) (by decide) (by decide) (by decide) (by decide) (by decide)
  have hb := C4_royalties_bound wEnv (some wAcct) wInputRoy10001 st0 wAcct (by decide)
    (by decide) (by decide) (by decide) (by decide) (by decide) (by decide)
  exact ⟨ha.1, by decide, ha.2.2 (by decide) (by decide) (by decide) (by decide),
    by decide, hb.2.1 (by decide)⟩

/-- C4 counterexample: an argument 3 of 5 bytes decoding to 2^32 exceeds 10000
as an arbitrary-precision integer, yet the call passes the royalty check and
succeeds, because the value is truncated to its low 32 bits (here 0). -/
theorem C4_claim_counterexample :
    10000 < beDecode (cexInputC4.arguments.getD 3 []) ∧
    isSuccess (process cexEnvC1 (some wAcct) cexInputC4 st0) = true := by
  decide

/-- C5 (amended): with the argument count exactly at the minimum (7 in Direct
mode, 8 in Resolved-Target mode) and the other preconditions held, the call
succeeds and the created unit carries the one-element URI list [argument 6] —
not an empty URI list, see the counterexample; with one argument fewer than
the minimum the call fails with invalid-arguments. -/
theorem C5_min_arguments (e : DctNFTCreate) (acntSnd : Option Account)
    (vmInput : ContractCallInput) (st : VMState) (acc : Account)
    (hv : validCall e acntSnd vmInput st acc)
    (hlen : vmInput.arguments.length =
      (if vmInput.callType = CallType.execOnDestByCaller then 8 else 7)) :
    (isSuccess (process e acntSnd vmInput st) = true ∧
      (process e acntSnd vmInput st).st.units =
        (acc.addr, dctKeyPrefixBytes ++ tokenIdArg vmInput,
          u64 (getLatestNonce acc (tokenIdArg vmInput) + 1),
          mkDctData vmInput acc [vmInput.arguments.getD 6 []]) :: st.units ∧
      (mkDctData vmInput acc [vmInput.arguments.getD 6 []]).tokenMetaData.uris =
        [vmInput.arguments.getD 6 []]) ∧
    (∀ (acnt2 : Option Account) (vmInput2 : ContractCallInput) (st2 : VMState),
      vmInput2.callerAddr = vmInput2.recipientAddr →
      ¬(acnt2 = none ∧ vmInput2.callType ≠ CallType.execOnDestByCaller) →
      e.funcGasCost ≤ vmInput2.gasProvided →
      vmInput2.arguments.length + 1 =
        (if vmInput2.callType = CallType.execOnDestByCaller then 8 else 7) →
      process e acnt2 vmInput2 st2 =
        { res := CallResult.failure PError.errInvalidArguments, acnt := acnt2, st := st2 }) := by
  have huris : urisOf vmInput = [vmInput.arguments.getD 6 []] := by
    unfold urisOf
    by_cases hct : vmInput.callType = CallType.execOnDestByCaller
    · rw [if_pos hct] at hlen ⊢
      rw [drop_of_length_succ_succ [] 6 vmInput.arguments hlen]
      rfl
    · rw [if_neg hct] at hlen ⊢
      exact drop_of_length_succ [] 6 vmInput.arguments hlen
  have heq : process e acntSnd vmInput st =
      mkSuccess e acntSnd vmInput st acc (urisOf vmInput) := by
    rw [process_eq_withRoles e acntSnd vmInput st acc hv.1 hv.2.1]
    exact processWithRoles_eq_success e acntSnd vmInput st acc _ hv.2.2
  refine ⟨⟨?_, ?_, rfl⟩, ?_⟩
  · rw [heq]
    exact mkSuccess_isSuccess e acntSnd vmInput st acc _
  · rw [heq, mkSuccess_units, huris]
  · intro acnt2 vmInput2 st2 hc1 hc2 hc3 hc4
    have hlt : vmInput2.arguments.length <
        (if vmInput2.callType = CallType.execOnDestByCaller then 8 else 7) := by omega
    exact process_count_fail e acnt2 vmInput2 st2
      ((checkInput_none_iff acnt2 vmInput2 e.funcGasCost).mpr ⟨hc1, hc2, hc3⟩) hlt

theorem C5_min_arguments_witness :
    (isSuccess (process wEnv (some wAcct) wInput st0) = true ∧
      (process wEnv (some wAcct) wInput st0).st.units =
        (wAcct.addr, dctKeyPrefixBytes ++ tokenIdArg wInput,
          u64 (getLatestNonce wAcct (tokenIdArg wInput) + 1),
          mkDctData wInput wAcct [wInput.arguments.getD 6 []]) :: st0.units ∧
      (mkDctData wInput wAcct [wInput.arguments.getD 6 []]).tokenMetaData.uris =
        [wInput.arguments.getD 6 []]) ∧
    process wEnv (some wAcct) wInputShort st0 =
      { res := CallResult.failure PError.errInvalidArguments, acnt := some wAcct, st := st0 } := by
  have hval : validCall wEnv (some wAcct) wInput st0 wAcct :=
    ⟨⟨by decide, by decide, by decide, by decide⟩, by decide,
      by decide, by decide, by decide, by decide, by decide, by decide⟩
  have h := C5_min_arguments wEnv (some wAcct) wInput st0 wAcct hval (by decide)
  exact ⟨h.1, h.2 (some wAcct) wInputShort st0 (by decide) (by decide) (by decide) (by decide)⟩

/-- C5 counterexample: a Direct-mode call with exactly 7 arguments (the
minimum) succeeds, but the created unit's URI list is the one-element list
[argument 6], not the empty list claimed. -/
theorem C5_claim_counterexample :
    wInput.arguments.length = 7 ∧
    isSuccess (process wEnv (some wAcct) wInput st0) = true ∧
    firstUnitUris (process wEnv (some wAcct) wInput st0) = [[9]] ∧
    firstUnitUris (process wEnv (some wAcct) wInput st0) ≠ [] := by
  decide

/-- C6 (amended): when the checks before the quantity check pass and the
creation role is held, a quantity decoding to 0 is rejected with
invalid-arguments independent of the add-quantity grant; a quantity above 1
without the add-quantity grant is rejected with authorization-denied, and with
the grant (and the length check passing) the call is accepted; without the
creation role the call is rejected with authorization-denied rather than
invalid-arguments — see the counterexample. -/
theorem C6_quantity_rules (e : DctNFTCreate) (acntSnd : Option Account)
    (vmInput : ContractCallInput) (st : VMState) (acc : Account)
    (h1 : vmInput.callerAddr = vmInput.recipientAddr)
    (h2 : (if vmInput.callType = CallType.execOnDestByCaller then 8 else 7) ≤
      vmInput.arguments.length)
    (h3 : vmInput.callType = CallType.execOnDestByCaller →
      (vmInput.arguments.getLastD []).length = vmInput.callerAddr.length ∧
      vmInput.arguments.getLastD [] ≠ vmInput.callerAddr)
    (h4 : resolveAcct acntSnd vmInput st = some acc)
    (hbase : e.funcGasCost ≤ vmInput.gasProvided)
    (hgas : gasToUse e vmInput ≤ vmInput.gasProvided)
    (hroy : royaltiesArg vmInput ≤ maxRoyalty)
    (hrole : e.roles acc.addr (tokenIdArg vmInput) roleNFTCreate = true) :
    (quantityArg vmInput = 0 →
      process e acntSnd vmInput st =
        { res := CallResult.failure PError.errInvalidArguments, acnt := acntSnd, st := st }) ∧
    (1 < quantityArg vmInput →
      e.roles acc.addr (tokenIdArg vmInput) roleNFTAddQuantity = false →
      process e acntSnd vmInput st =
        { res := CallResult.failure PError.errActionNotAllowed, acnt := acntSnd, st := st }) ∧
    (quantityArg vmInput ≠ 0 →
      (1 < quantityArg vmInput →
        e.roles acc.addr (tokenIdArg vmInput) roleNFTAddQuantity = true) →
      (e.valueLengthCheck = true →
        (vmInput.arguments.getD 1 []).length ≤ maxLenForAddNFTQuantity) →
      isSuccess (process e acntSnd vmInput st) = true) ∧
    (∀ (e2 : DctNFTCreate) (acnt2 : Option Account) (vmInput2 : ContractCallInput)
        (st2 : VMState) (acc2 : Account),
      vmInput2.callerAddr = vmInput2.recipientAddr →
      (if vmInput2.callType = CallType.execOnDestByCaller then 8 else 7) ≤
        vmInput2.arguments.length →
      (vmInput2.callType = CallType.execOnDestByCaller →
        (vmInput2.arguments.getLastD []).length = vmInput2.callerAddr.length ∧
        vmInput2.arguments.getLastD [] ≠ vmInput2.callerAddr) →
      resolveAcct acnt2 vmInput2 st2 = some acc2 →
      e2.funcGasCost ≤ vmInput2.gasProvided →
      e2.roles acc2.addr (tokenIdArg vmInput2) roleNFTCreate = false →
      process e2 acnt2 vmInput2 st2 =
        { res := CallResult.failure PError.errActionNotAllowed, acnt := acnt2, st := st2 }) := by
  have hreach : reachable acntSnd vmInput st acc := ⟨h1, h2, h3, h4⟩
  refine ⟨?_, ?_, ?_, ?_⟩
  · intro hq0
    rw [process_eq_withRoles e acntSnd vmInput st acc hreach hbase]
    exact processWithRoles_quantity_zero_fail e acntSnd vmInput st acc _ hrole hgas hroy hq0
  · intro hq1 hnorole
    rw [process_eq_withRoles e acntSnd vmInput st acc hreach hbase]
    exact processWithRoles_addqty_fail e acntSnd vmInput st acc _ hrole hgas hroy hq1 hnorole
  · intro hq hqr hlen
    rw [process_eq_withRoles e acntSnd vmInput st acc hreach hbase,
      processWithRoles_eq_success e acntSnd vmInput st acc _ ⟨hrole, hgas, hroy, hq, hqr, hlen⟩]
    exact mkSuccess_isSuccess e acntSnd vmInput st acc _
  · intro e2 acnt2 vmInput2 st2 acc2 g1 g2 g3 g4 g5 g6
    rw [process_eq_withRoles e2 acnt2 vmInput2 st2 acc2 ⟨g1, g2, g3, g4⟩ g5]
    exact processWithRoles_roles_fail e2 acnt2 vmInput2 st2 acc2 _ g6

theorem C6_quantity_rules_witness :
    process wEnv (some wAcct) wInputQty0 st0 =
      { res := CallResult.failure PError.errInvalidArguments, acnt := some wAcct, st := st0 } ∧
    process wEnvOnlyCreate (some wAcct) wInputQty2 st0 =
      { res := CallResult.failure PError.errActionNotAllowed, acnt := some wAcct, st := st0 } ∧
    isSuccess (process wEnv (some wAcct) wInputQty2 st0) = true ∧
    process cexEnvC6 (some wAcct) cexInputC6 st0 =
      { res := CallResult.failure PError.errActionNotAllowed, acnt := some wAcct, st := st0 } := by
  have ha := C6_quantity_rules wEnv (some wAcct) wInputQty0 st0 wAcct (by decide) (by decide)
    (by decide) (by decide) (by decide) (by decide) (by decide) (by decide)
  have hb := C6_quantity_rules wEnvOnlyCreate (some wAcct) wInputQty2 st0 wAcct (by decide)
    (by decide) (by decide) (by decide) (by decide) (by decide) (by decide) (by decide)
  have hc := C6_quantity_rules wEnv (some wAcct) wInputQty2 st0 wAcct (by decide) (by decide)
    (by decide) (by decide) (by decide) (by decide) (by decide) (by decide)
  exact ⟨ha.1 (by decide), hb.2.1 (by decide) (by decide),
    hc.2.2.1 (by decide) (by decide) (by decide),
    ha.2.2.2 cexEnvC6 (some wAcct) cexInputC6 st0 wAcct (by decide) (by decide) (by decide)
      (by decide) (by decide) (by decide)⟩

/-- C6 counterexample: a call with quantity 0 on a handler granting no role at
all is rejected with authorization-denied, not invalid-arguments — the
rejection code does depend on the role grants (the creation role is checked
first). -/
theorem C6_claim_counterexample :
    quantityArg cexInputC6 = 0 ∧
    process cexEnvC6 (some wAcct) cexInputC6 st0 =
      { res := CallResult.failure PError.errActionNotAllowed, acnt := some wAcct, st := st0 } ∧
    PError.errActionNotAllowed ≠ PError.errInvalidArguments := by
  decide

/-- C7: in Resolved-Target mode a call whose trailing target address equals
the caller, or whose length differs from the caller's, is always rejected with
the sender account and state untouched; on success the unit and the new nonce
are stored under the loaded target account, which differs from the caller and
is explicitly persisted through the account adapter. -/
theorem C7_resolved_target (e : DctNFTCreate) (acntSnd : Option Account)
    (vmInput : ContractCallInput) (st : VMState) (acc : Account)
    (hmode : vmInput.callType = CallType.execOnDestByCaller) :
    (vmInput.arguments.getLastD [] = vmInput.callerAddr →
      isSuccess (process e acntSnd vmInput st) = false ∧
      (process e acntSnd vmInput st).acnt = acntSnd ∧
      (process e acntSnd vmInput st).st = st) ∧
    ((vmInput.arguments.getLastD []).length ≠ vmInput.callerAddr.length →
      isSuccess (process e acntSnd vmInput st) = false ∧
      (process e acntSnd vmInput st).acnt = acntSnd ∧
      (process e acntSnd vmInput st).st = st) ∧
    (loadAccount st.accounts (vmInput.arguments.getLastD []) = some acc →
      isSuccess (process e acntSnd vmInput st) = true →
      (process e acntSnd vmInput st).st.units =
        (acc.addr, dctKeyPrefixBytes ++ tokenIdArg vmInput,
          u64 (getLatestNonce acc (tokenIdArg vmInput) + 1),
          mkDctData vmInput acc (urisOf vmInput)) :: st.units ∧
      acc.addr ≠ vmInput.callerAddr ∧
      (process e acntSnd vmInput st).acnt = acntSnd ∧
      loadAccount (process e acntSnd vmInput st).st.accounts
        (vmInput.arguments.getLastD []) =
        some (saveLatestNonce acc (tokenIdArg vmInput)
          (u64 (getLatestNonce acc (tokenIdArg vmInput) + 1))) ∧
      getLatestNonce (saveLatestNonce acc (tokenIdArg vmInput)
        (u64 (getLatestNonce acc (tokenIdArg vmInput) + 1))) (tokenIdArg vmInput) =
        u64 (getLatestNonce acc (tokenIdArg vmInput) + 1)) := by
  refine ⟨?_, ?_, ?_⟩
  · intro hteq
    rcases process_spec e acntSnd vmInput st with ⟨err, heq⟩ | ⟨acc2, hv, heq⟩
    · rw [heq]
      exact ⟨rfl, rfl, rfl⟩
    · obtain ⟨hlen, hne⟩ := hv.1.2.2.1 hmode
      exact absurd hteq hne
  · intro hlen2
    rcases process_spec e acntSnd vmInput st with ⟨err, heq⟩ | ⟨acc2, hv, heq⟩
    · rw [heq]
      exact ⟨rfl, rfl, rfl⟩
    · obtain ⟨hlen, hne⟩ := hv.1.2.2.1 hmode
      exact absurd hlen hlen2
  · intro hload hs
    have hacc : resolveAcct acntSnd vmInput st = some acc := by
      unfold resolveAcct
      rw [if_pos hmode]
      exact hload
    obtain ⟨hv, heq⟩ := process_success_acc_unique e acntSnd vmInput st acc hacc hs
    obtain ⟨hlen, hne⟩ := hv.1.2.2.1 hmode
    have haddr : acc.addr = vmInput.arguments.getLastD [] :=
      loadAccount_addr st.accounts (vmInput.arguments.getLastD []) acc hload
    refine ⟨?_, ?_, ?_, ?_, ?_⟩
    · rw [heq, mkSuccess_units]
    · rw [haddr]
      exact hne
    · rw [heq, mkSuccess_acnt, if_pos hmode]
    · rw [heq, mkSuccess_accounts, if_pos hmode]
      unfold loadAccount
      rw [if_pos (by rw [saveLatestNonce_addr]; exact haddr)]
    · exact getLatestNonce_saveLatestNonce acc (tokenIdArg vmInput) _ (u64_lt _)

theorem C7_resolved_target_witness :
    (isSuccess (process wEnv (some wAcct) wInputExecSelf wStExec) = false ∧
      (process wEnv (some wAcct) wInputExecSelf wStExec).acnt = some wAcct ∧
      (process wEnv (some wAcct) wInputExecSelf wStExec).st = wStExec) ∧
    (isSuccess (process wEnv (some wAcct) wInputExecBadLen wStExec) = false ∧
      (process wEnv (some wAcct) wInputExecBadLen wStExec).acnt = some wAcct ∧
      (process wEnv (some wAcct) wInputExecBadLen wStExec).st = wStExec) ∧
    ((process wEnv (some wAcct) wInputExec wStExec).st.units =
      (wTarget.addr, dctKeyPrefixBytes ++ tokenIdArg wInputExec,
        u64 (getLatestNonce wTarget (tokenIdArg wInputExec) + 1),
        mkDctData wInputExec wTarget (urisOf wInputExec)) :: wStExec.units ∧
      wTarget.addr ≠ wInputExec.callerAddr ∧
      (process wEnv (some wAcct) wInputExec wStExec).acnt = some wAcct ∧
      loadAccount (process wEnv (some wAcct) wInputExec wStExec).st.accounts
        (wInputExec.arguments.getLastD []) =
        some (saveLatestNonce wTarget (tokenIdArg wInputExec)
          (u64 (getLatestNonce wTarget (tokenIdArg wInputExec) + 1))) ∧
      getLatestNonce (saveLatestNonce wTarget (tokenIdArg wInputExec)
        (u64 (getLatestNonce wTarget (tokenIdArg wInputExec) + 1))) (tokenIdArg wInputExec) =
        u64 (getLatestNonce wTarget (tokenIdArg wInputExec) + 1)) :=
  ⟨(C7_resolved_target wEnv (some wAcct) wInputExecSelf wStExec wTarget (by decide)).1
      (by decide),
    (C7_resolved_target wEnv (some wAcct) wInputExecBadLen wStExec wTarget (by decide)).2.1
      (by decide),
    (C7_resolved_target wEnv (some wAcct) wInputExec wStExec wTarget (by decide)).2.2
      (by decide) (by decide)⟩

/-- C9: serialization failure is non-fatal — replacing the serializer never
changes acceptance, the final sender account and state, the nonce payload or
the remaining gas; a successful call returns the success record with the
correct payload and gas whatever the serializer did, its single emitted event
carries the serializer output, and an empty payload when serialization
failed. -/
theorem C9_marshal_non_fatal (e : DctNFTCreate) (m1 m2 : DCToken → Option Bytes)
    (acntSnd : Option Account) (vmInput : ContractCallInput) (st : VMState) (acc : Account)
    (hacc : resolveAcct acntSnd vmInput st = some acc)
    (hs : isSuccess (process { e with marshal := m1 } acntSnd vmInput st) = true) :
    isSuccess (process { e with marshal := m2 } acntSnd vmInput st) = true ∧
    (process { e with marshal := m2 } acntSnd vmInput st).acnt =
      (process { e with marshal := m1 } acntSnd vmInput st).acnt ∧
    (process { e with marshal := m2 } acntSnd vmInput st).st =
      (process { e with marshal := m1 } acntSnd vmInput st).st ∧
    returnDataOf (process { e with marshal := m1 } acntSnd vmInput st) =
      [beEncode (u64 (getLatestNonce acc (tokenIdArg vmInput) + 1))] ∧
    returnDataOf (process { e with marshal := m2 } acntSnd vmInput st) =
      returnDataOf (process { e with marshal := m1 } acntSnd vmInput st) ∧
    gasRemainingOf (process { e with marshal := m1 } acntSnd vmInput st) =
      vmInput.gasProvided - gasToUse e vmInput ∧
    gasRemainingOf (process { e with marshal := m2 } acntSnd vmInput st) =
      gasRemainingOf (process { e with marshal := m1 } acntSnd vmInput st) ∧
    logDataOf (process { e with marshal := m1 } acntSnd vmInput st) =
      [(m1 (mkDctData vmInput acc (urisOf vmInput))).getD []] ∧
    (m1 (mkDctData vmInput acc (urisOf vmInput)) = none →
      logDataOf (process { e with marshal := m1 } acntSnd vmInput st) = [[]]) := by
  obtain ⟨hv1, heq1⟩ :=
    process_success_acc_unique { e with marshal := m1 } acntSnd vmInput st acc hacc hs
  have hv2 : validCall { e with marshal := m2 } acntSnd vmInput st acc := hv1
  have heq2 : process { e with marshal := m2 } acntSnd vmInput st =
      mkSuccess { e with marshal := m2 } acntSnd vmInput st acc (urisOf vmInput) := by
    rw [process_eq_withRoles { e with marshal := m2 } acntSnd vmInput st acc hv2.1 hv2.2.1]
    exact processWithRoles_eq_success { e with marshal := m2 } acntSnd vmInput st acc _ hv2.2.2
  have hred1 : logDataOf (mkSuccess { e with marshal := m1 } acntSnd vmInput st acc
      (urisOf vmInput)) = [(m1 (mkDctData vmInput acc (urisOf vmInput))).getD []] := rfl
  refine ⟨?_, ?_, ?_, ?_, ?_, ?_, ?_, ?_, ?_⟩
  · rw [heq2]
    exact mkSuccess_isSuccess { e with marshal := m2 } acntSnd vmInput st acc _
  · rw [heq1, heq2]
    rfl
  · rw [heq1, heq2]
    rfl
  · rw [heq1, returnDataOf_mkSuccess]
  · rw [heq1, heq2]
    rfl
  · rw [heq1, gasRemainingOf_mkSuccess]
    rfl
  · rw [heq1, heq2]
    rfl
  · rw [heq1]
    exact hred1
  · intro hm
    rw [heq1, hred1, hm]
    rfl

theorem C9_marshal_non_fatal_witness :
    isSuccess (process { wEnv with marshal := fun _ => some [5] } (some wAcct) wInput st0) =
      true ∧
    (process { wEnv with marshal := fun _ => some [5] } (some wAcct) wInput st0).acnt =
      (process { wEnv with marshal := fun _ => none } (some wAcct) wInput st0).acnt ∧
    (process { wEnv with marshal := fun _ => some [5] } (some wAcct) wInput st0).st =
      (process { wEnv with marshal := fun _ => none } (some wAcct) wInput st0).st ∧
    returnDataOf (process { wEnv with marshal := fun _ => none } (some wAcct) wInput st0) =
      [beEncode (u64 (getLatestNonce wAcct (tokenIdArg wInput) + 1))] ∧
    returnDataOf (process { wEnv with marshal := fun _ => some [5] } (some wAcct) wInput st0) =
      returnDataOf (process { wEnv with marshal := fun _ => none } (some wAcct) wInput st0) ∧
    gasRemainingOf (process { wEnv with marshal := fun _ => none } (some wAcct) wInput st0) =
      wInput.gasProvided - gasToUse wEnv wInput ∧
    gasRemainingOf (process { wEnv with marshal := fun _ => some [5] } (some wAcct) wInput st0) =
      gasRemainingOf (process { wEnv with marshal := fun _ => none } (some wAcct) wInput st0) ∧
    logDataOf (process { wEnv with marshal := fun _ => none } (some wAcct) wInput st0) =
      [((fun (_ : DCToken) => (none : Option Bytes))
          (mkDctData wInput wAcct (urisOf wInput))).getD []] ∧
    ((fun (_ : DCToken) => (none : Option Bytes)) (mkDctData wInput wAcct (urisOf wInput)) =
        none →
      logDataOf (process { wEnv with marshal := fun _ => none } (some wAcct) wInput st0) =
        [[]]) :=
  C9_marshal_non_fatal wEnv (fun _ => none) (fun _ => some [5]) (some wAcct) wInput st0 wAcct
    (by decide) (by decide)
